import Mathlib

/-!
Shallow embedding of the extraction engine of
src/scripts/ironman_results_scraper.py.

The script drives a Selenium session over the race-results widget.  We
embed its control flow as pure Lean functions over explicit environments
that record, for each remote interaction, the outcome the live page would
have produced (success with a value, or an exception).  Every retry loop,
accumulation list, and try/except boundary of the script is mirrored by a
recursion over such an environment.
-/

namespace IronmanScraper

/-- Configurable setting SET_ROWS_TO_100 (script line 68). -/
def SET_ROWS_TO_100 : Bool := true

/-- Configurable setting ENABLE_PAGINATION (script line 69). -/
def ENABLE_PAGINATION : Bool := true

/-- The individual data items read from a result row by the script:
the label-anchored detail reads (designation, div/gender/overall rank,
division, script lines 244 and 274-278) and the data-field reads
(athlete and the six duration fields, lines 251, 261-266, 279-284). -/
inductive Field
  | designation
  | athlete
  | swimTime
  | t1
  | bikeTime
  | t2
  | runTime
  | finishTime
  | divRank
  | genderRank
  | overallRank
  | division
  deriving DecidableEq, Repr

/-- Net result of the retry loops inside get_text (lines 212-218) and
get_text_by_data_field (lines 220-232): each list element is the outcome
of one attempt (some text when the element lookup returned, none when it
raised); the first successful attempt's text is returned, and when every
attempt fails the sentinel "N/A" is returned. -/
def getText : List (Option String) → String
  | [] => "N/A"
  | some v :: _ => v
  | none :: rest => getText rest

/-- Environment for one opened row: for each field, the list of
per-attempt outcomes its read would produce. -/
def FieldReads : Type := Field → List (Option String)

/-- Reading one field of the opened row through its retry loop. -/
def readField (reads : FieldReads) (f : Field) : String :=
  getText (reads f)

/-- The dictionary key under which each field is stored in a result
record (the string literals of lines 247-285). -/
def fieldKey : Field → String
  | .designation => "Designation"
  | .athlete => "Athlete"
  | .swimTime => "Swim Time"
  | .t1 => "Transition 1"
  | .bikeTime => "Bike Time"
  | .t2 => "Transition 2"
  | .runTime => "Run Time"
  | .finishTime => "Finish Time"
  | .divRank => "Div Rank"
  | .genderRank => "Gender Rank"
  | .overallRank => "Overall Rank"
  | .division => "Division"

/-- One result record: a Python dict, i.e. an insertion-ordered list of
key/value pairs. -/
abbrev Record := List (String × String)

/-- The designation dispatch of lines 244-285: read the designation,
then build the record whose key set depends on it.  DNS and DQ rows get
the four base keys (lines 247-253), DNF rows add the six duration fields
(lines 255-267), and every other designation string, the failed-read
sentinel "N/A" included, falls into the else branch producing the
FINISHER-shaped record (lines 269-285). -/
def extractRecord (raceName raceDate : String) (reads : FieldReads) : Record :=
  if readField reads .designation = "DNS" ∨ readField reads .designation = "DQ" then
    [("Race Name", raceName), ("Race Date", raceDate),
     ("Athlete", readField reads .athlete), ("Designation", readField reads .designation)]
  else if readField reads .designation = "DNF" then
    [("Race Name", raceName), ("Race Date", raceDate),
     ("Athlete", readField reads .athlete), ("Designation", readField reads .designation),
     ("Swim Time", readField reads .swimTime), ("Transition 1", readField reads .t1),
     ("Bike Time", readField reads .bikeTime), ("Transition 2", readField reads .t2),
     ("Run Time", readField reads .runTime), ("Finish Time", readField reads .finishTime)]
  else
    [("Race Name", raceName), ("Race Date", raceDate),
     ("Athlete", readField reads .athlete),
     ("Div Rank", readField reads .divRank), ("Gender Rank", readField reads .genderRank),
     ("Overall Rank", readField reads .overallRank), ("Designation", readField reads .designation),
     ("Division", readField reads .division),
     ("Swim Time", readField reads .swimTime), ("Transition 1", readField reads .t1),
     ("Bike Time", readField reads .bikeTime), ("Transition 2", readField reads .t2),
     ("Run Time", readField reads .runTime), ("Finish Time", readField reads .finishTime)]

/-- Pointwise update of a field environment at one field. -/
def updateReads (reads : FieldReads) (f0 : Field) (outs : List (Option String)) :
    FieldReads :=
  fun f => if f = f0 then outs else reads f

/-- Outcome of one attempt of the per-row 10-attempt loop
(lines 234-291).  An attempt may raise before the record is appended
(row re-resolution, indexing, scroll or the opening click, lines
236-242), in which case nothing was added; it may append the record and
then raise at the closing click of line 287, in which case the loop
retries with the record already in the list; or it may run to the break
of line 288. -/
inductive RowAttempt
  | fail
  | appendFail (reads : FieldReads)
  | ok (reads : FieldReads)

/-- The per-row retry loop of lines 234-291.  raceDate is the current
value of the race_date_text variable: none models the name being unbound
(never assigned since the start of the run), which makes the dict
construction of lines 248-285 raise a NameError before the append, so
the attempt behaves like a failing one.  The accumulated race_results
list is only ever appended to; when all attempts fail the row is skipped
and the list is returned unchanged. -/
def processRow (raceName : String) (raceDate : Option String) :
    List RowAttempt → List Record → List Record
  | [], acc => acc
  | .fail :: rest, acc => processRow raceName raceDate rest acc
  | .appendFail reads :: rest, acc =>
    match raceDate with
    | none => processRow raceName raceDate rest acc
    | some d => processRow raceName raceDate rest (acc ++ [extractRecord raceName d reads])
  | .ok reads :: rest, acc =>
    match raceDate with
    | none => processRow raceName raceDate rest acc
    | some d => acc ++ [extractRecord raceName d reads]

/-- The for loop over row_number of line 210, processing each row of the
page in ordinal order. -/
def processRows (raceName : String) (raceDate : Option String) :
    List (List RowAttempt) → List Record → List Record
  | [], acc => acc
  | r :: rest, acc => processRows raceName raceDate rest (processRow raceName raceDate r acc)

/-- Outcome of one attempt of the next-page block (lines 297-309): the
button lookup may time out (noButton, caught at line 308), or the click
may fire without the previous rows ever going stale within the wait
budget (staleTimeout, the staleness wait of line 306 raises), or the
click fires and staleness is observed (advanced, reaching the break of
line 307 with the table on the next page). -/
inductive NextAttempt
  | noButton
  | staleTimeout
  | advanced
  deriving DecidableEq, Repr

/-- The next-page for/else of lines 297-311 for a table whose next
button carries the Mui-disabled class exactly on the last page.  isLast
says whether the current page is the last.  Returns true when the loop
broke having advanced to the next page, false when pagination_active was
set to False: by the disabled check of lines 302-304, or by exhausting
the five attempts and falling into the else of lines 310-311 (the
staleness-timeout fallback). -/
def nextPage : Bool → List NextAttempt → Bool
  | _, [] => false
  | isLast, .noButton :: rest => nextPage isLast rest
  | isLast, .staleTimeout :: rest => if isLast then false else nextPage isLast rest
  | isLast, .advanced :: _ => if isLast then false else true

/-- Environment for one page of the results table: whether the
top-of-page row resolution of lines 201-203 raises (escaping to the
per-race except), the attempt outcomes of each row on the page, and the
attempt outcomes of the next-page block. -/
structure PageEnv where
  resolveFails : Bool
  rows : List (List RowAttempt)
  nextAttempts : List NextAttempt

/-- Result of running the page loop for one date facet: either an
exception escaped to the per-race try (aborted) or the loop ended with
pagination_active False (finished); either way the race_results list
accumulated so far is carried. -/
inductive StepResult
  | aborted (acc : List Record)
  | finished (acc : List Record)

/-- The while pagination_active loop of lines 199-313, fed by the finite
list of pages the remote table serves for the selected date.  An empty
remaining list means the table serves no page: the row resolution of
line 201 times out and raises.  The loop advances to the next page only
when the next-page block reports an advance. -/
def processPages (raceName : String) (raceDate : Option String) :
    List PageEnv → List Record → StepResult
  | [], acc => .aborted acc
  | p :: rest, acc =>
    if p.resolveFails then .aborted acc
    else
      let acc2 := processRows raceName raceDate p.rows acc
      if ENABLE_PAGINATION then
        if nextPage rest.isEmpty p.nextAttempts then
          processPages raceName raceDate rest acc2
        else .finished acc2
      else .finished acc2

/-- Fuel-indexed version of the same while loop, mirroring that the
source loop has no iteration bound of its own: none means the fuel ran
out while pagination_active was still True. -/
def processPagesFuel (raceName : String) (raceDate : Option String) :
    Nat → List PageEnv → List Record → Option StepResult
  | 0, _, _ => none
  | _ + 1, [], acc => some (.aborted acc)
  | fuel + 1, p :: rest, acc =>
    if p.resolveFails then some (.aborted acc)
    else
      let acc2 := processRows raceName raceDate p.rows acc
      if ENABLE_PAGINATION then
        if nextPage rest.isEmpty p.nextAttempts then
          processPagesFuel raceName raceDate fuel rest acc2
        else some (.finished acc2)
      else some (.finished acc2)

/-- Outcome of one attempt of the date-selection 5-attempt loop
(lines 153-170).  failEarly: the attempt raises before line 163 (at the
dropdown wait or click, the options wait, or the options[i] indexing),
leaving race_date_text untouched.  failAfterText: the attempt reads the
option text into race_date_text at line 163 and then raises at the
click of line 165, so the variable holds the new label although the
selection did not happen.  ok: the attempt reaches the break of
line 167. -/
inductive DateSelAttempt
  | failEarly
  | failAfterText (label : String)
  | ok (label : String)

/-- The date-selection retry loop of lines 153-170 as a transformer of
the race_date_text variable (none = the name is still unbound). -/
def selectDate : List DateSelAttempt → Option String → Option String
  | [], cur => cur
  | .failEarly :: rest, cur => selectDate rest cur
  | .failAfterText l :: rest, _ => selectDate rest (some l)
  | .ok l :: _, _ => some l

/-- Number of webdriver.Chrome() calls the driver-restart retry loop of
lines 135-150 performs: each attempt quits the old driver and opens a
fresh one; the loop stops at the first attempt whose whole
quit/open/navigate/iframe sequence succeeds. -/
def opensOfRestart : List Bool → Nat
  | [] => 0
  | true :: _ => 1
  | false :: rest => 1 + opensOfRestart rest

/-- Environment for one date facet of a race: the restart-attempt
outcomes of lines 135-150 (consulted only when the guard of line 132
fires), the date-selection attempt outcomes of lines 153-170, and the
pages the table serves after the selection. -/
structure DateEnv where
  restartAttempts : List Bool
  selAttempts : List DateSelAttempt
  pages : List PageEnv

/-- The mutable state the script threads across races and dates:
race_date_counter (line 85, global, never reset), the race_date_text
variable (unbound until first assigned at line 163, then retained across
dates and races), the running count of webdriver.Chrome() session opens,
and the race_results list of the current race. -/
structure ScrapeState where
  counter : Nat
  dateText : Option String
  opens : Nat
  acc : List Record

/-- One iteration of the for loop over race dates (lines 130-313):
the guarded driver restart (lines 131-150, the guard of line 132 is
race_date_counter greater than zero and race_date_counter mod 1 equal
zero), the date selection (153-170), the counter increment of line 172,
and the page loop.  The returned Bool says whether an exception escaped
to the per-race except (the SET_ROWS_TO_100 block of lines 177-193
swallows all its failures and touches none of this state, so it has no
footprint here). -/
def processDate (raceName : String) (d : DateEnv) (st : ScrapeState) :
    ScrapeState × Bool :=
  let st1 :=
    if st.counter > 0 ∧ st.counter % 1 = 0 then
      { st with opens := st.opens + opensOfRestart d.restartAttempts }
    else st
  let st2 := { st1 with dateText := selectDate d.selAttempts st1.dateText,
                        counter := st1.counter + 1 }
  match processPages raceName st2.dateText d.pages st2.acc with
  | .finished acc => ({ st2 with acc := acc }, false)
  | .aborted acc => ({ st2 with acc := acc }, true)

/-- The for loop over all race dates of line 130; stops early when an
iteration lets an exception escape to the per-race except. -/
def processDates (raceName : String) : List DateEnv → ScrapeState → ScrapeState × Bool
  | [], st => (st, false)
  | d :: rest, st =>
    let (st1, aborted) := processDate raceName d st
    if aborted then (st1, true) else processDates raceName rest st1

/-- Environment for one race of the catalog.  openFails: the driver
start or the driver.get of lines 101-103, which stand before the try of
line 105, raise — the exception is uncaught and kills the whole run.
setupFails: the iframe/dropdown/options enumeration of lines 107-124,
inside the try, raises.  quitFails: the driver.quit() of the finally at
line 326 raises (uncaught, kills the run). -/
structure RaceEnv where
  name : String
  openFails : Bool
  setupFails : Bool
  dates : List DateEnv
  quitFails : Bool

/-- How one race's processing ended: crashed means an exception escaped
the per-race body entirely (nothing later in the run executes); doneRace
carries the state and the artifact written for this race — some records
when line 320 ran, none when the except of line 323 was taken and the
to_csv of line 320 was therefore skipped. -/
inductive RaceResult
  | crashed (st : ScrapeState)
  | doneRace (st : ScrapeState) (artifact : Option (List Record))

/-- The per-race body of lines 91-326: reset race_results (line 98),
start the driver and navigate (101-103, before the try), then under the
try run setup, the date loop, and the save of lines 319-320; any
exception inside the try is caught at line 323, after which the finally
quits the driver and the loop moves on.  The to_csv call stands at the
end of the try, so an aborted race writes no artifact; a cleanly
finished race writes exactly its accumulated records, an empty file when
there are none. -/
def processRace (r : RaceEnv) (st : ScrapeState) : RaceResult :=
  let st0 := { st with acc := [] }
  if r.openFails then .crashed st0
  else
    let st1 := { st0 with opens := st0.opens + 1 }
    if r.setupFails then
      if r.quitFails then .crashed st1 else .doneRace st1 none
    else
      let (st2, aborted) := processDates r.name r.dates st1
      let artifact := if aborted then none else some st2.acc
      if r.quitFails then .crashed st2 else .doneRace st2 artifact

/-- The state a race left behind, whichever way it ended. -/
def raceFinalState : RaceResult → ScrapeState
  | .crashed st => st
  | .doneRace st _ => st

/-- The artifact a race wrote: none when it crashed or aborted. -/
def artifactOf : RaceResult → Option (List Record)
  | .crashed _ => none
  | .doneRace _ a => a

/-- The for loop over the race catalog (line 91).  Returns the list of
(race name, artifact written) for the races that ran to their finally,
and whether the run was killed by an uncaught exception (in which case
the remaining races never execute). -/
def runRaces : List RaceEnv → ScrapeState → List (String × Option (List Record)) × Bool
  | [], _ => ([], false)
  | r :: rest, st =>
    match processRace r st with
    | .crashed _ => ([], true)
    | .doneRace st1 art =>
      let (arts, crashed) := runRaces rest st1
      ((r.name, art) :: arts, crashed)

/-- The state at script start: counter 0 (line 85), race_date_text
unbound, no sessions opened, no records. -/
def initState : ScrapeState := ⟨0, none, 0, []⟩

/-- The columns of pd.DataFrame(race_results) (line 319): the union of
the dict keys of the records, in first-appearance order. -/
def dfColumns (records : List Record) : List String :=
  records.foldl
    (fun cols r =>
      r.foldl (fun cs kv => if kv.1 ∈ cs then cs else cs ++ [kv.1]) cols)
    []

/-- The string df_race.to_csv (line 320, no na_rep argument) writes in
a record's cell for a given column: the stored value when the record's
dict has the key, the empty string (pandas NaN) when it does not. -/
def cellValue (r : Record) (c : String) : String :=
  match r.find? (fun kv => kv.1 = c) with
  | some kv => kv.2
  | none => ""

/-- Whether a row attempt is one that reaches the break of line 288. -/
def isOkAttempt : RowAttempt → Bool
  | .ok _ => true
  | _ => false

/-- Whether a row attempt appends its record and then raises at the
closing click of line 287. -/
def isAppendFail : RowAttempt → Bool
  | .appendFail _ => true
  | _ => false

/-- Whether a date-selection attempt reaches the break of line 167. -/
def isOkSel : DateSelAttempt → Bool
  | .ok _ => true
  | _ => false

/-- The option text a failing date-selection attempt wrote into
race_date_text at line 163, if it got that far before raising. -/
def textReadOf : DateSelAttempt → Option String
  | .failAfterText l => some l
  | _ => none

/-- One step of the effect the date-selection loop has on the
race_date_text variable while no attempt succeeds: an attempt that
reached the text read of line 163 overwrites the variable with its
label, any other attempt leaves it alone. -/
def labelStep (c : Option String) (a : DateSelAttempt) : Option String :=
  match textReadOf a with
  | some l => some l
  | none => c

/-- The race_results list a page-loop outcome carries. -/
def accOf : StepResult → List Record
  | .aborted a => a
  | .finished a => a

/-- A field environment for a FINISHER row whose every read succeeds on
the first attempt. -/
def finReads (athlete : String) : FieldReads := fun f =>
  match f with
  | .designation => [some "FINISHER"]
  | .athlete => [some athlete]
  | _ => [some "t"]

/-- A field environment for a DNS row whose every read succeeds on the
first attempt. -/
def dnsReads (athlete : String) : FieldReads := fun f =>
  match f with
  | .designation => [some "DNS"]
  | .athlete => [some athlete]
  | _ => [some "t"]

/-- A page holding one FINISHER row and one DNS row, each succeeding on
its first attempt; adv says whether the next-page block advances (a
next page exists and the click plus staleness wait succeed) or the
button is never found within its five attempts. -/
def twoRowPage (a b : String) (adv : Bool) : PageEnv :=
  ⟨false, [[.ok (finReads a)], [.ok (dnsReads b)]],
   if adv then [.advanced] else [.noButton]⟩

/-- A date facet with label l served as two pages of two rows each. -/
def twoPageDate (l a b c d : String) : DateEnv :=
  ⟨[true], [.ok l], [twoRowPage a b true, twoRowPage c d false]⟩

/-- A race of two dates, each of two pages of two rows: the end-to-end
scenario of the spec, under a fault-free remote environment. -/
def race2x2x2 : RaceEnv :=
  ⟨"R", false, false,
   [twoPageDate "D1" "A1" "A2" "A3" "A4", twoPageDate "D2" "A5" "A6" "A7" "A8"],
   false⟩

/-- A single fault-free page of two rows after which pagination ends. -/
def cleanPage : PageEnv := ⟨false, [[.ok (finReads "Ann")], [.ok (dnsReads "Bob")]], []⟩

/-- A fault-free date facet served as one page, with a single
successful restart attempt when the restart guard fires. -/
def cleanDate : DateEnv := ⟨[true], [.ok "D1"], [cleanPage]⟩

/-- A race with three date facets and no remote faults. -/
def cleanRace3 : RaceEnv := ⟨"R", false, false, [cleanDate, cleanDate, cleanDate], false⟩

/-- A page whose top-of-page row resolution raises, escaping to the
per-race except. -/
def abortPage : PageEnv := ⟨true, [], []⟩

/-- A one-row page whose next-page block advances. -/
def advPage : PageEnv := ⟨false, [[.ok (finReads "Ann")]], [.advanced]⟩

/-- A date facet that accumulates one record on its first page and then
hits a fatal row-resolution failure on its second. -/
def abortDate : DateEnv := ⟨[true], [.ok "D1"], [advPage, abortPage]⟩

/-- A race that accumulates one record and is then aborted by an
unrecoverable page failure. -/
def c1AbortRace : RaceEnv := ⟨"R", false, false, [abortDate], false⟩

/-- A race whose entry point cannot be reached: the driver.get of
line 103, before the try, raises. -/
def unreachableRace : RaceEnv := ⟨"R1", true, false, [], false⟩

/-- A fault-free race with no date facets. -/
def trivialRace : RaceEnv := ⟨"R2", false, false, [], false⟩

/-! Helper lemmas shared by several developments below. -/

theorem processRow_append (rn : String) (rd : Option String) (attempts : List RowAttempt) :
    ∀ acc, processRow rn rd attempts acc = acc ++ processRow rn rd attempts [] := by
  induction attempts with
  | nil => intro acc; simp [processRow]
  | cons a rest ih =>
    intro acc
    cases a with
    | fail => simpa [processRow] using ih acc
    | appendFail reads =>
      cases rd with
      | none => simpa [processRow] using ih acc
      | some d =>
        show processRow rn (some d) rest (acc ++ [extractRecord rn d reads]) =
          acc ++ processRow rn (some d) rest ([] ++ [extractRecord rn d reads])
        rw [ih (acc ++ [extractRecord rn d reads]), ih ([] ++ [extractRecord rn d reads])]
        simp
    | ok reads =>
      cases rd with
      | none => simpa [processRow] using ih acc
      | some d => simp [processRow]

theorem processRows_append (rn : String) (rd : Option String) (rows : List (List RowAttempt)) :
    ∀ acc, processRows rn rd rows acc = acc ++ processRows rn rd rows [] := by
  induction rows with
  | nil => intro acc; simp [processRows]
  | cons r rest ih =>
    intro acc
    show processRows rn rd rest (processRow rn rd r acc) =
      acc ++ processRows rn rd rest (processRow rn rd r [])
    rw [ih (processRow rn rd r acc), processRow_append rn rd r acc,
      ih (processRow rn rd r []), List.append_assoc]

theorem processRows_concat (rn : String) (rd : Option String) (l1 l2 : List (List RowAttempt)) :
    ∀ acc, processRows rn rd (l1 ++ l2) acc = processRows rn rd l2 (processRows rn rd l1 acc) := by
  induction l1 with
  | nil => intro acc; simp [processRows]
  | cons r rest ih => intro acc; simpa [processRows] using ih (processRow rn rd r acc)

theorem processPages_acc (rn : String) (rd : Option String) (pages : List PageEnv) :
    ∀ acc, accOf (processPages rn rd pages acc) = acc ++ accOf (processPages rn rd pages []) := by
  induction pages with
  | nil => intro acc; simp [processPages, accOf]
  | cons p rest ih =>
    intro acc
    by_cases hr : p.resolveFails
    · simp [processPages, hr, accOf]
    · by_cases hn : nextPage rest.isEmpty p.nextAttempts
      · simp only [processPages, hr, if_false, ENABLE_PAGINATION, if_true, hn, Bool.false_eq_true]
        rw [ih (processRows rn rd p.rows acc), processRows_append rn rd p.rows acc,
          ih (processRows rn rd p.rows []), List.append_assoc]
      · simp only [processPages, hr, if_false, ENABLE_PAGINATION, if_true, hn, Bool.false_eq_true,
          accOf]
        rw [processRows_append rn rd p.rows acc]

theorem processDate_acc (rn : String) (d : DateEnv) (st : ScrapeState) :
    ((processDate rn d st).1).acc =
      st.acc ++ accOf (processPages rn (selectDate d.selAttempts st.dateText) d.pages []) := by
  by_cases hc : st.counter > 0 ∧ st.counter % 1 = 0 <;>
    simp only [processDate, hc, if_true, if_false] <;>
    cases hp : processPages rn (selectDate d.selAttempts st.dateText) d.pages st.acc <;>
      simp_all [accOf] <;>
      simpa [hp, accOf] using processPages_acc rn (selectDate d.selAttempts st.dateText) d.pages st.acc

theorem processRace_done (r : RaceEnv) (st : ScrapeState)
    (h1 : r.openFails = false) (h2 : r.quitFails = false) :
    ∃ st1 a, processRace r st = .doneRace st1 a := by
  unfold processRace
  simp only [h1, h2, Bool.false_eq_true, if_false]
  by_cases h3 : r.setupFails
  · simp only [h3, if_true]
    exact ⟨_, _, rfl⟩
  · simp only [h3, if_false, Bool.false_eq_true]
    cases hp : processDates r.name r.dates { st with acc := [], opens := st.opens + 1 } with
    | mk st2 ab => exact ⟨_, _, rfl⟩

theorem processRow_length (rn d : String) (attempts : List RowAttempt)
    (h : attempts.all (fun a => !isAppendFail a)) :
    ∀ acc, (processRow rn (some d) attempts acc).length =
      acc.length + (if attempts.any isOkAttempt then 1 else 0) := by
  induction attempts with
  | nil => intro acc; simp [processRow]
  | cons a rest ih =>
    simp only [List.all_cons, Bool.and_eq_true] at h
    cases a with
    | fail =>
      intro acc
      simpa [processRow, isOkAttempt] using ih h.2 acc
    | appendFail reads => simp [isAppendFail] at h
    | ok reads => intro acc; simp [processRow, isOkAttempt]

theorem processRows_length (rn d : String) (rows : List (List RowAttempt))
    (h : ∀ r ∈ rows, r.all (fun a => !isAppendFail a)) :
    ∀ acc, (processRows rn (some d) rows acc).length =
      acc.length + rows.countP (fun r => r.any isOkAttempt) := by
  induction rows with
  | nil => intro acc; simp [processRows]
  | cons r rest ih =>
    intro acc
    have hr := h r (by simp)
    have hrest : ∀ x ∈ rest, x.all (fun a => !isAppendFail a) := fun x hx => h x (by simp [hx])
    show (processRows rn (some d) rest (processRow rn (some d) r acc)).length =
      acc.length + List.countP (fun r => r.any isOkAttempt) (r :: rest)
    rw [ih hrest (processRow rn (some d) r acc), processRow_length rn d r hr acc,
      List.countP_cons]
    omega

theorem readField_update_self (reads : FieldReads) (f0 : Field) (outs : List (Option String)) :
    readField (updateReads reads f0 outs) f0 = getText outs := by
  simp [readField, updateReads]

theorem readField_update_ne (reads : FieldReads) (f0 f : Field) (outs : List (Option String))
    (h : f ≠ f0) : readField (updateReads reads f0 outs) f = readField reads f := by
  simp [readField, updateReads, h]

theorem processDates_cons (rn : String) (d : DateEnv) (rest : List DateEnv) (st : ScrapeState) :
    processDates rn (d :: rest) st =
      (if (processDate rn d st).2 then ((processDate rn d st).1, true)
       else processDates rn rest (processDate rn d st).1) := by
  show (let p := processDate rn d st; if p.2 then (p.1, true) else processDates rn rest p.1) = _
  rcases h : processDate rn d st with ⟨st1, ab⟩
  cases ab <;> simp [h, processDates]

theorem cleanDate_step (st : ScrapeState) :
    processDate "R" cleanDate st =
      ({ counter := st.counter + 1, dateText := some "D1",
         opens := st.opens + (if st.counter = 0 then 0 else 1),
         acc := st.acc ++ [extractRecord "R" "D1" (finReads "Ann"),
                           extractRecord "R" "D1" (dnsReads "Bob")] }, false) := by
  by_cases h : st.counter = 0
  · simp [processDate, cleanDate, cleanPage, selectDate, processPages, processRows, processRow,
      nextPage, opensOfRestart, ENABLE_PAGINATION, h]
  · have hpos : 0 < st.counter := Nat.pos_of_ne_zero h
    simp [processDate, cleanDate, cleanPage, selectDate, processPages, processRows, processRow,
      nextPage, opensOfRestart, ENABLE_PAGINATION, h, hpos, Nat.mod_one]

/-! Claim theorems. -/

/-- C1 (amended): an output artifact is written for a race exactly when
its processing reaches the end of the per-race try block cleanly; then
it contains exactly the accumulated records, an empty artifact when zero
records were extracted (shown here by a race with no date facets).  When
the race is aborted by an unrecoverable error, the to_csv of line 320 is
skipped, so the records accumulated up to that point are discarded, not
persisted. -/
theorem artifactOnlyOnCleanFinish :
    (∀ (r : RaceEnv) (st : ScrapeState), r.openFails = false → r.quitFails = false →
      r.setupFails = false →
      ((processDates r.name r.dates { st with acc := [], opens := st.opens + 1 }).2 = false →
        artifactOf (processRace r st) = some ((raceFinalState (processRace r st)).acc)) ∧
      ((processDates r.name r.dates { st with acc := [], opens := st.opens + 1 }).2 = true →
        artifactOf (processRace r st) = none)) ∧
    (∀ name st, artifactOf (processRace ⟨name, false, false, [], false⟩ st) = some []) := by
  constructor
  · intro r st h1 h2 h3
    unfold processRace
    simp only [h1, h2, h3, Bool.false_eq_true, if_false]
    cases hp : processDates r.name r.dates { st with acc := [], opens := st.opens + 1 } with
    | mk st2 ab =>
      cases ab <;> simp [hp, artifactOf, raceFinalState]
  · intro name st
    rfl

/-- C1 witness: a clean race with no date facets writes the empty
artifact. -/
theorem artifactOnlyOnCleanFinish_witness :
    artifactOf (processRace trivialRace initState) =
      some ((raceFinalState (processRace trivialRace initState)).acc) :=
  (artifactOnlyOnCleanFinish.1 trivialRace initState rfl rfl rfl).1 rfl

/-- C1 counterexample: a race that accumulates one record and is then
aborted by an unrecoverable page failure writes no artifact at all,
refuting that accumulated records are persisted on abort. -/
theorem abortDiscardsAccumulatedRecords :
    artifactOf (processRace c1AbortRace initState) = none ∧
    (raceFinalState (processRace c1AbortRace initState)).acc.length = 1 := ⟨rfl, rfl⟩

/-- C2 (amended): when no attempt of a row fails between the append and
the closing click, each row contributes exactly one record when some
attempt succeeds and zero when all its attempts fail before the append
(the row is then skipped), and a page's record count is the number of
its rows with a successful attempt.  Without that proviso a row can
contribute several records: an attempt that appends and then fails at
the closing click of line 287 is retried whole, appending again. -/
theorem rowRecordCountWithoutCloseFailures :
    (∀ (rn d : String) (attempts : List RowAttempt) (acc : List Record),
       attempts.all (fun a => !isAppendFail a) = true →
       (processRow rn (some d) attempts acc).length =
         acc.length + (if attempts.any isOkAttempt then 1 else 0)) ∧
    (∀ (rn d : String) (rows : List (List RowAttempt)) (acc : List Record),
       (∀ r ∈ rows, r.all (fun a => !isAppendFail a) = true) →
       (processRows rn (some d) rows acc).length =
         acc.length + rows.countP (fun r => r.any isOkAttempt)) ∧
    (∀ (rn : String) (rd : Option String) (acc : List Record),
       processRow rn rd (List.replicate 10 .fail) acc = acc) := by
  refine ⟨fun rn d attempts acc h => processRow_length rn d attempts h acc,
    fun rn d rows acc h => processRows_length rn d rows h acc,
    fun rn rd acc => rfl⟩

/-- C2 witness: one row with a single successful attempt yields one
record. -/
theorem rowRecordCountWithoutCloseFailures_witness :
    (processRow "R" (some "D") [.ok (finReads "Ann")] []).length =
      ([] : List Record).length +
        (if [RowAttempt.ok (finReads "Ann")].any isOkAttempt then 1 else 0) :=
  rowRecordCountWithoutCloseFailures.1 "R" "D" [.ok (finReads "Ann")] [] (by decide)

/-- C2 counterexample: a row whose first attempt appends its record and
then fails at the closing click, and whose second attempt succeeds,
contributes two records — refuting that no row contributes more than
one record. -/
theorem closeFailureDuplicatesRowRecord :
    (processRow "R" (some "D") [.appendFail (finReads "Ann"), .ok (finReads "Ann")] []).length
      = 2 := rfl

/-- C3: every extracted record carries the race name, race date, athlete
and designation values, and the set of further keys is fully determined
by the designation string: DNS and DQ records carry only the base four,
DNF records add the six duration fields, and any other designation,
an unrecognized or missing (sentinel) one included, produces the
FINISHER shape with the six durations plus the div, gender and overall
ranks and the division. -/
theorem recordShapeDeterminedByDesignation (rn rd : String) (reads : FieldReads) :
    (extractRecord rn rd reads).map Prod.fst =
      (if readField reads .designation = "DNS" ∨ readField reads .designation = "DQ" then
        ["Race Name", "Race Date", "Athlete", "Designation"]
      else if readField reads .designation = "DNF" then
        ["Race Name", "Race Date", "Athlete", "Designation",
         "Swim Time", "Transition 1", "Bike Time", "Transition 2", "Run Time", "Finish Time"]
      else
        ["Race Name", "Race Date", "Athlete", "Div Rank", "Gender Rank", "Overall Rank",
         "Designation", "Division",
         "Swim Time", "Transition 1", "Bike Time", "Transition 2", "Run Time", "Finish Time"]) ∧
    cellValue (extractRecord rn rd reads) "Race Name" = rn ∧
    cellValue (extractRecord rn rd reads) "Race Date" = rd ∧
    cellValue (extractRecord rn rd reads) "Athlete" = readField reads .athlete ∧
    cellValue (extractRecord rn rd reads) "Designation" = readField reads .designation := by
  by_cases h1 : readField reads .designation = "DNS" ∨ readField reads .designation = "DQ" <;>
  by_cases h2 : readField reads .designation = "DNF" <;>
  simp [extractRecord, cellValue, h1, h2, List.find?]

/-- C4 (amended): failures raised inside the per-race try block are
contained — the race is abandoned and the run continues over the whole
catalog — but a failure to start the driver or to reach the race entry
point (lines 101-103, before the try) or to quit the driver in the
finally is uncaught and terminates the whole run. -/
theorem runSurvivesFailuresInsideTry (races : List RaceEnv) (st : ScrapeState)
    (h : ∀ r ∈ races, r.openFails = false ∧ r.quitFails = false) :
    (runRaces races st).2 = false ∧ (runRaces races st).1.length = races.length := by
  induction races generalizing st with
  | nil => simp [runRaces]
  | cons r rest ih =>
    have hr := h r (by simp)
    obtain ⟨st1, a, hp⟩ := processRace_done r st hr.1 hr.2
    have hrest : ∀ x ∈ rest, x.openFails = false ∧ x.quitFails = false :=
      fun x hx => h x (by simp [hx])
    simp [runRaces, hp, ih st1 hrest]

/-- C4 witness: a catalog of one race whose entry point is reachable and
whose teardown succeeds is processed to the end. -/
theorem runSurvivesFailuresInsideTry_witness :
    (runRaces [trivialRace] initState).2 = false ∧
    (runRaces [trivialRace] initState).1.length = 1 :=
  runSurvivesFailuresInsideTry [trivialRace] initState (by
    intro r hr
    simp only [List.mem_singleton] at hr
    subst hr
    exact ⟨rfl, rfl⟩)

/-- C4 counterexample: a race whose entry point is unreachable (the
driver.get of line 103 raises before the try) kills the whole run: the
following race is never processed, refuting that no per-race failure
terminates the run. -/
theorem entryPointFailureKillsRun :
    (runRaces [unreachableRace, trivialRace] initState).2 = true ∧
    (runRaces [unreachableRace, trivialRace] initState).1 = [] := ⟨rfl, rfl⟩

/-- C5 (amended): under the per-date recycle guard of line 132, a fault
free race with three date facets performs one initial session open plus
one restart open per date whose pre-increment race_date_counter is
positive.  The counter is global across the run and never reset, so
every race after the first performs 4 opens in total, but the first race
of the run performs only 3: no restart precedes its first date. -/
theorem sessionOpensPerRace (st : ScrapeState) :
    (raceFinalState (processRace cleanRace3 st)).opens =
      st.opens + (if st.counter = 0 then 3 else 4) := by
  by_cases h : st.counter = 0 <;>
    simp [processRace, cleanRace3, processDates_cons, cleanDate_step, processDates,
      raceFinalState, h]

/-- C5 counterexample: the first race of the run, with 3 date facets and
no faults, performs 3 session opens in total, not the 4 the claim
demands for every race. -/
theorem firstRaceGetsThreeOpens :
    cleanRace3.dates.length = 3 ∧
    (raceFinalState (processRace cleanRace3 initState)).opens = 3 ∧
    (raceFinalState (processRace cleanRace3 initState)).opens ≠ 4 :=
  ⟨rfl, rfl, by decide⟩

/-- C6: the per-date page loop always terminates: against a table
serving finitely many pages it needs no more while-iterations than there
are pages (the fuel-indexed loop with any fuel exceeding the page count
agrees with the total recursion), it never advances past the last page
(where the next control reports disabled, or is absent, or staleness
times out), and in particular exhausting the five next-page attempts on
staleness timeouts sets pagination_active to False — end-of-pagination,
not an infinite loop. -/
theorem paginationTerminatesFailClosed :
    (∀ (rn : String) (rd : Option String) (pages : List PageEnv) (acc : List Record) (fuel : Nat),
       pages.length < fuel →
       processPagesFuel rn rd fuel pages acc = some (processPages rn rd pages acc)) ∧
    (∀ attempts, nextPage true attempts = false) ∧
    (∀ isLast, nextPage isLast (List.replicate 5 .staleTimeout) = false) := by
  refine ⟨?_, ?_, ?_⟩
  · intro rn rd pages
    induction pages with
    | nil =>
      intro acc fuel h
      cases fuel with
      | zero => omega
      | succ n => rfl
    | cons p rest ih =>
      intro acc fuel h
      cases fuel with
      | zero => omega
      | succ n =>
        simp only [processPagesFuel, processPages]
        by_cases hr : p.resolveFails
        · simp [hr]
        · simp only [hr, Bool.false_eq_true, if_false, ENABLE_PAGINATION, if_true]
          by_cases hn : nextPage rest.isEmpty p.nextAttempts
          · simp only [hn, if_true]
            refine ih _ n ?_
            simp at h
            omega
          · simp [hn]
  · intro attempts
    induction attempts with
    | nil => rfl
    | cons a rest ih => cases a <;> simp [nextPage, ih]
  · intro isLast
    cases isLast <;> rfl

/-- C6 witness: one page of fuel headroom suffices for a one-page
table. -/
theorem paginationTerminatesFailClosed_witness :
    [cleanPage].length < 2 ∧
    processPagesFuel "R" (some "D1") 2 [cleanPage] [] =
      some (processPages "R" (some "D1") [cleanPage] []) :=
  ⟨by decide, paginationTerminatesFailClosed.1 "R" (some "D1") [cleanPage] [] 2 (by decide)⟩

/-- C7 (amended): the artifact's columns are the union, in first
appearance order, of the keys of the records actually written — a race
whose records are all DNS or DQ shaped yields only the four base
columns, while one FINISHER-shaped record alone already yields all
fourteen.  A field absent from a record's designation shape is
serialized as the empty cell (pandas NaN under to_csv without na_rep),
whereas a field that is part of the shape but could not be read carries
the sentinel string written by the read itself. -/
theorem artifactColumnsAndEmptyCells :
    (∀ (rn d : String) (reads : FieldReads),
       (readField reads .designation = "DNS" ∨ readField reads .designation = "DQ") →
       dfColumns [extractRecord rn d reads] = ["Race Name", "Race Date", "Athlete", "Designation"] ∧
       cellValue (extractRecord rn d reads) "Swim Time" = "" ∧
       cellValue (extractRecord rn d reads) "Div Rank" = "") ∧
    (∀ (rn d : String) (reads : FieldReads),
       ¬(readField reads .designation = "DNS" ∨ readField reads .designation = "DQ") →
       ¬readField reads .designation = "DNF" →
       dfColumns [extractRecord rn d reads] =
         ["Race Name", "Race Date", "Athlete", "Div Rank", "Gender Rank", "Overall Rank",
          "Designation", "Division", "Swim Time", "Transition 1", "Bike Time", "Transition 2",
          "Run Time", "Finish Time"]) ∧
    (∀ (reads : FieldReads) (f : Field),
       reads f = List.replicate 3 none → readField reads f = "N/A") := by
  refine ⟨?_, ?_, ?_⟩
  · intro rn d reads h
    refine ⟨?_, ?_, ?_⟩ <;> simp [extractRecord, dfColumns, cellValue, h, List.find?]
  · intro rn d reads h1 h2
    simp [extractRecord, dfColumns, h1, h2]
  · intro reads f h
    simp [readField, h, getText, List.replicate]

/-- C7 witness: a DNS record's artifact row has only the four base
columns. -/
theorem artifactColumnsAndEmptyCells_witness :
    (readField (dnsReads "Bob") .designation = "DNS" ∨
      readField (dnsReads "Bob") .designation = "DQ") ∧
    dfColumns [extractRecord "R" "D" (dnsReads "Bob")] =
      ["Race Name", "Race Date", "Athlete", "Designation"] :=
  ⟨Or.inl rfl, (artifactColumnsAndEmptyCells.1 "R" "D" (dnsReads "Bob") (Or.inl rfl)).1⟩

/-- C7 counterexample: the artifact of a race holding one DNS record
does not have the full fourteen-column union, and the DNS row's absent
Swim Time field is serialized as an empty cell, not as the literal
sentinel string. -/
theorem dnsArtifactLacksSentinelColumns :
    dfColumns [extractRecord "R" "D" (dnsReads "Bob")] ≠
      ["Race Name", "Race Date", "Athlete", "Designation", "Div Rank", "Gender Rank",
       "Overall Rank", "Division", "Swim Time", "Transition 1", "Bike Time", "Transition 2",
       "Run Time", "Finish Time"] ∧
    cellValue (extractRecord "R" "D" (dnsReads "Bob")) "Swim Time" = "" ∧
    ("" : String) ≠ "N/A" :=
  ⟨by decide, rfl, by decide⟩

/-- C8 (amended): for every field other than the designation, a change
of that field's read outcomes (a failure after the retry budget
included, which the read records as the sentinel) changes at most that
field's own entry of the row's record and nothing else, and a row's
record is independent of every other row of the page: the page's output
decomposes as the concatenation of the per-row outputs.  The proviso is
forced: a failed designation read changes which record shape is built. -/
theorem fieldFailureContainedPerField :
    (∀ (rn d : String) (reads : FieldReads) (f0 : Field) (outs : List (Option String)),
       f0 ≠ Field.designation →
       extractRecord rn d (updateReads reads f0 outs) =
         (extractRecord rn d reads).map
           (fun kv => if kv.1 = fieldKey f0 then (kv.1, getText outs) else kv)) ∧
    (∀ (rn : String) (rd : Option String) (pre : List (List RowAttempt))
       (a : List RowAttempt) (post : List (List RowAttempt)) (acc : List Record),
       processRows rn rd (pre ++ a :: post) acc =
         acc ++ processRows rn rd pre [] ++ processRow rn rd a [] ++
           processRows rn rd post []) := by
  constructor
  · intro rn d reads f0 outs h
    cases f0 <;> try exact absurd rfl h
    all_goals (
      by_cases h1 : readField reads .designation = "DNS" ∨ readField reads .designation = "DQ" <;>
      by_cases h2 : readField reads .designation = "DNF" <;>
      simp [extractRecord, readField_update_self, readField_update_ne, fieldKey, h1, h2])
  · intro rn rd pre a post acc
    rw [processRows_concat rn rd pre (a :: post) acc]
    show processRows rn rd post (processRow rn rd a (processRows rn rd pre acc)) = _
    rw [processRows_append rn rd post (processRow rn rd a (processRows rn rd pre acc)),
      processRow_append rn rd a (processRows rn rd pre acc),
      processRows_append rn rd pre acc]

/-- C8 witness: failing the Swim Time read of a DNS row perturbs nothing
(the DNS record has no Swim Time entry, so the map is the identity). -/
theorem fieldFailureContainedPerField_witness :
    Field.swimTime ≠ Field.designation ∧
    extractRecord "R" "D" (updateReads (dnsReads "Bob") .swimTime [none, none, none]) =
      (extractRecord "R" "D" (dnsReads "Bob")).map
        (fun kv => if kv.1 = fieldKey .swimTime then (kv.1, getText [none, none, none]) else kv) :=
  ⟨by decide,
    fieldFailureContainedPerField.1 "R" "D" (dnsReads "Bob") .swimTime [none, none, none]
      (by decide)⟩

/-- C8 counterexample: when the single failing field read is the
designation itself (exhausting its three attempts), the DNS row's record
acquires a Div Rank entry it would not otherwise have — the failure
perturbs other fields, refuting the claim for that field. -/
theorem designationFailureChangesShape :
    ("Div Rank" ∈ (extractRecord "R" "D"
        (updateReads (dnsReads "Bob") .designation [none, none, none])).map Prod.fst) ∧
    ¬("Div Rank" ∈ (extractRecord "R" "D" (dnsReads "Bob")).map Prod.fst) :=
  ⟨by decide, by decide⟩

/-- C9: the accumulated record sequence is only ever appended to — at
the row, page and date level the output with any starting accumulator is
the accumulator followed by a suffix — and under a fault-free remote
environment a race with 2 dates of 2 pages of 2 rows yields exactly 8
records in date-major, page-major, row-major order. -/
theorem recordsAppendOnlyInOrder :
    (∀ (rn : String) (rd : Option String) (attempts : List RowAttempt) (acc : List Record),
       processRow rn rd attempts acc = acc ++ processRow rn rd attempts []) ∧
    (∀ (rn : String) (rd : Option String) (rows : List (List RowAttempt)) (acc : List Record),
       processRows rn rd rows acc = acc ++ processRows rn rd rows []) ∧
    (∀ (rn : String) (d : DateEnv) (st : ScrapeState),
       ∃ suffix, ((processDate rn d st).1).acc = st.acc ++ suffix) ∧
    (raceFinalState (processRace race2x2x2 initState)).acc.map (fun r => cellValue r "Athlete") =
      ["A1", "A2", "A3", "A4", "A5", "A6", "A7", "A8"] ∧
    (raceFinalState (processRace race2x2x2 initState)).acc.map (fun r => cellValue r "Race Date") =
      ["D1", "D1", "D1", "D1", "D2", "D2", "D2", "D2"] ∧
    (raceFinalState (processRace race2x2x2 initState)).acc.length = 8 := by
  exact ⟨fun rn rd a acc => processRow_append rn rd a acc,
    fun rn rd r acc => processRows_append rn rd r acc,
    fun rn d st => ⟨_, processDate_acc rn d st⟩, rfl, rfl, rfl⟩

/-- C10 (amended): if race_date_text is unbound, every row extraction of
the facet fails and it yields zero records; a selection loop whose first
success is at some attempt sets the label to that attempt's text; but
the variable is overwritten by any attempt that reaches the text read of
line 163 even when the subsequent click fails, so after a fully failed
selection loop the label is the last text actually read during the
failed attempts, falling back to the previous value (possibly another
date or race) only when no attempt reached the read. -/
theorem dateLabelOverwriteSemantics :
    (∀ (rn : String) (attempts : List RowAttempt) (acc : List Record),
       processRow rn none attempts acc = acc) ∧
    (∀ (pre : List DateSelAttempt) (l : String) (rest : List DateSelAttempt) (cur : Option String),
       (∀ a ∈ pre, isOkSel a = false) →
       selectDate (pre ++ .ok l :: rest) cur = some l) ∧
    (∀ (attempts : List DateSelAttempt) (cur : Option String),
       (∀ a ∈ attempts, isOkSel a = false) →
       selectDate attempts cur = attempts.foldl labelStep cur) := by
  refine ⟨?_, ?_, ?_⟩
  · intro rn attempts
    induction attempts with
    | nil => intro acc; rfl
    | cons a rest ih => intro acc; cases a <;> simp [processRow, ih]
  · intro pre
    induction pre with
    | nil => intro l rest cur h; rfl
    | cons a pre ih =>
      intro l rest cur h
      have ha := h a (by simp)
      have hrest : ∀ x ∈ pre, isOkSel x = false := fun x hx => h x (by simp [hx])
      cases a with
      | failEarly => simpa [selectDate] using ih l rest cur hrest
      | failAfterText l2 => simpa [selectDate] using ih l rest (some l2) hrest
      | ok l2 => simp [isOkSel] at ha
  · intro attempts
    induction attempts with
    | nil => intro cur h; rfl
    | cons a rest ih =>
      intro cur h
      have ha := h a (by simp)
      have hrest : ∀ x ∈ rest, isOkSel x = false := fun x hx => h x (by simp [hx])
      cases a with
      | failEarly => simpa [selectDate, labelStep, textReadOf] using ih cur hrest
      | failAfterText l2 => simpa [selectDate, labelStep, textReadOf] using ih (some l2) hrest
      | ok l2 => simp [isOkSel] at ha

/-- C10 witness: one failed-after-text attempt leaves the label at that
attempt's text. -/
theorem dateLabelOverwriteSemantics_witness :
    selectDate [DateSelAttempt.failAfterText "M"] (some "A") =
      [DateSelAttempt.failAfterText "M"].foldl labelStep (some "A") :=
  dateLabelOverwriteSemantics.2.2 [.failAfterText "M"] (some "A") (by decide)

/-- C10 counterexample: five selection attempts that all read the new
option text and then fail at the click leave the label at the new text,
not at the label of the most recent successful selection, refuting that
the variable is only overwritten on a successful selection. -/
theorem failedSelectionOverwritesLabel :
    selectDate (List.replicate 5 (.failAfterText "May 4")) (some "Apr 1") = some "May 4" ∧
    (some "May 4" : Option String) ≠ some "Apr 1" := ⟨rfl, by decide⟩

end IronmanScraper
